import Mathlib

/-!
A shallow embedding of the statement parsing and translation core of the
CoCo3 assembler (`cocoasm/statement.py`), together with theorems about its
behaviour.  Modules that `statement.py` imports but whose sources are not
part of this tree (`cocoasm.operand`, `cocoasm.instruction`,
`cocoasm.helpers`, `cocoasm.exceptions`) are modelled from the
specification; every such definition is marked `Modelled from the spec`.
Machine characters are modelled over ASCII (the assembler's input set).
-/

namespace CoCo

/-- ASCII model of the Python regex class `\w`: alphanumeric or underscore. -/
def isWordChar (c : Char) : Bool := c.isAlphanum || c == '_'

/-- ASCII model of the Python regex class `\s` (whitespace). -/
def isSpaceChar (c : Char) : Bool :=
  c == ' ' || c == '\t' || c == '\n' || c == '\r' || c == '\x0b' || c == '\x0c'

/-- The operand character class of `ASM_LINE_REGEX`:
`[\w\[\]#$,+-\.\*]` (the range `+-\.` covers `+`, `,`, `-`, `.`). -/
def isOperandChar (c : Char) : Bool :=
  isWordChar c || c == '[' || c == ']' || c == '#' || c == '$' ||
  c == ',' || c == '+' || c == '-' || c == '.' || c == '*'

/-- Python regex `.` outside DOTALL mode: any character except newline. -/
def isDotChar (c : Char) : Bool := c != '\n'

def isSemiChar (c : Char) : Bool := c == ';'

def isNewlineChar (c : Char) : Bool := c == '\n'

/-- One quantified character class of a regular expression: `cls` repeated
between `lo` and `hi` times (`hi = none` meaning unbounded), matched
greedily. -/
structure Atom where
  cls : Char → Bool
  lo : Nat
  hi : Option Nat

/-- Backtracking loop of the matcher: try candidate lengths
`k, k - 1, …, lo` (greedy: longest first), returning the first success.
Callers only invoke it with `lo ≤ k`. -/
def tryLens (f : Nat → Option (List (List Char))) : Nat → Nat → Option (List (List Char))
  | 0, _ => f 0
  | k + 1, lo =>
    match f (k + 1) with
    | Option.some r => Option.some r
    | Option.none => if k + 1 ≤ lo then Option.none else tryLens f k lo

/-- Match a sequence of greedy quantified character classes against the
whole input (Python `re` semantics for an anchored pattern that is a
sequence of character-class quantifiers), returning the matched group for
each atom.  Greedy with backtracking: each atom first takes as many
characters as it can, giving characters back only when the rest of the
pattern cannot match. -/
def matchAtoms : List Atom → List Char → Option (List (List Char))
  | [], s => if s.isEmpty then Option.some [] else Option.none
  | a :: as, s =>
    let pre := s.takeWhile a.cls
    let maxTake := Nat.min pre.length (a.hi.getD pre.length)
    if maxTake < a.lo then Option.none
    else
      tryLens (fun k => (matchAtoms as (s.drop k)).map (fun gs => s.take k :: gs))
        maxTake a.lo

/-- The source regex `BLANK_LINE_REGEX`: `^\s*$`. -/
def blankAtoms : List Atom := [⟨isSpaceChar, 0, Option.none⟩]

/-- Whether `BLANK_LINE_REGEX.search(line)` finds a match (the pattern is
anchored at both ends, so search and match agree). -/
def blankMatches (l : List Char) : Bool := (matchAtoms blankAtoms l).isSome

/-- The source regex `COMMENT_LINE_REGEX`: `^\s*;\s*(?P<comment>.*)$`.  Atom 3 is the
`comment` group; the final atom is the optional trailing newline admitted
by `$`. -/
def commentAtoms : List Atom :=
  [⟨isSpaceChar, 0, Option.none⟩, ⟨isSemiChar, 1, Option.some 1⟩,
   ⟨isSpaceChar, 0, Option.none⟩, ⟨isDotChar, 0, Option.none⟩,
   ⟨isNewlineChar, 0, Option.some 1⟩]

/-- The source regex `ASM_LINE_REGEX`:
`^(?P<label>\w*)\s+(?P<mnemonic>\w*)\s+(?P<operands>[\w\[\]#$,+-\.\*]*)\s*[;]*(?P<comment>.*)$`.
Atom 0 is `label`, atom 2 `mnemonic`, atom 4 `operands`, atom 7 `comment`;
the final atom is the optional trailing newline admitted by `$`. -/
def asmAtoms : List Atom :=
  [⟨isWordChar, 0, Option.none⟩, ⟨isSpaceChar, 1, Option.none⟩,
   ⟨isWordChar, 0, Option.none⟩, ⟨isSpaceChar, 1, Option.none⟩,
   ⟨isOperandChar, 0, Option.none⟩, ⟨isSpaceChar, 0, Option.none⟩,
   ⟨isSemiChar, 0, Option.none⟩, ⟨isDotChar, 0, Option.none⟩,
   ⟨isNewlineChar, 0, Option.some 1⟩]

/-- Python `str.strip()`: remove leading and trailing whitespace. -/
def stripChars (l : List Char) : List Char :=
  ((l.dropWhile isSpaceChar).reverse.dropWhile isSpaceChar).reverse

/-- A Python value that may sit in the `op_code` / `post_byte` /
`additional` slot of a statement: `None`, an integer, or a string. -/
inductive Value where
  | none : Value
  | int (n : Nat) : Value
  | str (s : String) : Value
deriving DecidableEq

/-- Python truthiness of a `Value`: `None`, `0` and `""` are falsy. -/
def Value.truthy : Value → Bool
  | Value.none => false
  | Value.int n => n != 0
  | Value.str s => s != ""

/-- The uppercase hexadecimal digit for `n < 16`. -/
def hexDigitChar (n : Nat) : Char :=
  if n < 10 then Char.ofNat (48 + n) else Char.ofNat (55 + n)

/-- Uppercase hexadecimal digits of `n` (most significant first),
accumulated onto `acc`; empty for `n = 0`.  The first argument is fuel,
always called with at least `n` (each step divides `n` by 16). -/
def natToHexAux : Nat → Nat → List Char → List Char
  | 0, _, acc => acc
  | fuel + 1, n, acc =>
    if n = 0 then acc
    else natToHexAux fuel (n / 16) (hexDigitChar (n % 16) :: acc)

/-- Uppercase hexadecimal digits of `n`, empty for `n = 0`. -/
def natToHex (n : Nat) : List Char := natToHexAux n n []

/-- Left-pad with `'0'` up to width `w`. -/
def padLeftZeros (l : List Char) (w : Nat) : List Char :=
  List.replicate (w - l.length) '0' ++ l

/-- Strip one leading `'$'`. -/
def stripDollar : List Char → List Char
  | '$' :: rest => rest
  | l => l

/-- Modelled from the spec: `cocoasm.helpers.hex_value` (its source is not
in this tree).  Renders an encoding value as a hexadecimal byte string:
absent or falsy values render as the empty string (the callers in
`statement.py` guard on truthiness and turn `""` into `None` via
`or None`), integers render as uppercase hexadecimal left-padded with
zeros to `w` digits, and strings render with a leading `$` stripped. -/
def hex_value (v : Value) (w : Nat) : String :=
  match v with
  | Value.none => ""
  | Value.int n => if n = 0 then "" else String.mk (padLeftZeros (natToHex n) w)
  | Value.str s => if s = "" then "" else String.mk (stripDollar s.data)

/-- Modelled from the spec: `cocoasm.operand.Operand` (its source is not in
this tree).  Holds the raw operand text; `raw = none` models Python's
`Operand(None)`. -/
structure Operand where
  raw : Option String
deriving DecidableEq

/-- The characters of the operand text (`Operand(None)` behaves as the
empty text). -/
def Operand.chars (o : Operand) : List Char := (o.raw.getD "").data

/-- Modelled from the spec: empty operand, inherent addressing. -/
def Operand.is_inherent (o : Operand) : Bool := o.chars.isEmpty

/-- Modelled from the spec: immediate operand `#value`. -/
def Operand.is_immediate (o : Operand) : Bool :=
  o.chars.head? == Option.some '#'

/-- Modelled from the spec: direct operand `<value`. -/
def Operand.is_direct (o : Operand) : Bool :=
  o.chars.head? == Option.some '<'

/-- Modelled from the spec: extended-indirect operand `[value]`. -/
def Operand.is_extended_indirect (o : Operand) : Bool :=
  o.chars.head? == Option.some '[' && o.chars.getLast? == Option.some ']'

/-- Modelled from the spec: a bare identifier needing symbol resolution
(first character alphabetic, all characters word characters). -/
def Operand.is_symbol (o : Operand) : Bool :=
  (o.chars.head?.map Char.isAlpha).getD false && o.chars.all isWordChar

/-- Modelled from the spec: extended addressing, a plain value — any
non-empty operand that is not immediate, direct, or extended-indirect.  A
bare identifier is also a plain value, which is what makes a
symbol-substituted address encode as an extended operand (in `translate`
the symbol branch runs before the addressing-mode checks, so a
source-level identifier is always resolved first). -/
def Operand.is_extended (o : Operand) : Bool :=
  !o.chars.isEmpty && !o.is_immediate && !o.is_direct && !o.is_extended_indirect

/-- Modelled from the spec: the underlying string of the operand (the
direct-mode marker `<` is stripped, cf. `DIR_REGEX` in `statement.py`). -/
def Operand.get_string_value (o : Operand) : String :=
  if o.chars.head? == Option.some '<' then String.mk o.chars.tail
  else String.mk o.chars

/-- Value of a hexadecimal digit character (0 for non-digits). -/
def hexCharVal (c : Char) : Nat :=
  if 48 ≤ c.toNat && c.toNat ≤ 57 then c.toNat - 48
  else if 65 ≤ c.toNat && c.toNat ≤ 70 then c.toNat - 55
  else if 97 ≤ c.toNat && c.toNat ≤ 102 then c.toNat - 87
  else 0

def hexToNat (l : List Char) : Nat := l.foldl (fun a c => a * 16 + hexCharVal c) 0

def decToNat (l : List Char) : Nat := l.foldl (fun a c => a * 10 + (c.toNat - 48)) 0

/-- Modelled from the spec: the numeric value of an immediate operand
(`#$hh` hexadecimal, `#nn` decimal). -/
def Operand.get_immediate (o : Operand) : Value :=
  match o.chars with
  | '#' :: '$' :: rest => Value.int (hexToNat rest)
  | '#' :: rest => Value.int (decToNat rest)
  | _ => Value.int 0

/-- Modelled from the spec: the target of an extended-indirect operand
`[value]`, with the surrounding brackets and a leading `$` stripped. -/
def Operand.get_extended_indirect (o : Operand) : Value :=
  match o.chars with
  | '[' :: rest => Value.str (String.mk (stripDollar rest.dropLast))
  | cs => Value.str (String.mk cs)

/-- Modelled from the spec: the symbol table consumed during translation —
a mapping from label to the defining statement, of which translation only
reads the `address` field (a hexadecimal string, possibly empty). -/
abbrev SymbolTable := List (String × String)

/-- Python `statement.get_address()` of a symbol-table entry:
`self.address or "0000"`. -/
def entryAddress (a : String) : String := if a = "" then "0000" else a

/-- Modelled from the spec: the per-addressing-mode part of an instruction
descriptor — for each mode, the opcode value to emit when the mode is
supported, `none` when it is not. -/
structure Mode where
  inh : Option Nat
  imm : Option Nat
  dir : Option Nat
  ind : Option Nat
  ext : Option Nat
  rel : Option Nat
deriving DecidableEq

/-- Modelled from the spec: a mode-support predicate is `isSome` of the
mode's opcode slot. -/
def Mode.supports_inherent (m : Mode) : Bool := m.inh.isSome

def Mode.supports_immediate (m : Mode) : Bool := m.imm.isSome

def Mode.supports_indexed (m : Mode) : Bool := m.ind.isSome

def Mode.supports_direct (m : Mode) : Bool := m.dir.isSome

def Mode.supports_extended (m : Mode) : Bool := m.ext.isSome

/-- Modelled from the spec: an instruction descriptor from the
`INSTRUCTIONS` table (`cocoasm.instruction`, not in this tree): category
flags, per-mode opcode values, and the delegated pseudo-op and special-op
translation functions. -/
structure Instruction where
  mnemonic : String
  mode : Mode
  is_pseudo : Bool
  is_special : Bool
  is_branch_operation : Bool
  translate_pseudo : String → Operand → SymbolTable → Value
  translate_special : Operand → Value

/-- Python assigning a possibly-`None` opcode slot, as in
`self.op_code = self.instruction.mode.rel`. -/
def valOfOpt : Option Nat → Value
  | Option.none => Value.none
  | Option.some n => Value.int n

/-- The `Statement` record of `statement.py` (the unused bookkeeping field
`state` is omitted). -/
structure Statement where
  empty : Bool
  comment_only : Bool
  instruction : Option Instruction
  label : Option String
  operand : Operand
  comment : Option String
  size : Nat
  address : String
  mnemonic : Option String
  op_code : Value
  post_byte : Value
  additional : Value

/-- The errors of `cocoasm.exceptions` raised by this core, each carrying
its message and the statement; `attributeFailure` models the Python
`AttributeError` of calling `translate` on a statement whose mnemonic was
never matched (`self.instruction` is `None`). -/
inductive Err where
  | parse (msg : String) (st : Statement)
  | translation (msg : String) (st : Statement)
  | attributeFailure

/-- Python `"{}".format(x)` of an optional string (`None` prints as
`"None"`). -/
def fmtOptStr : Option String → String
  | Option.none => "None"
  | Option.some s => s

/-- State of `Statement.__init__` before `parse_line` runs: all fields cleared,
`set_address(0x0)` applied. -/
def initStatement : Statement :=
  { empty := true, comment_only := false, instruction := Option.none,
    label := Option.none, operand := ⟨Option.none⟩, comment := Option.none,
    size := 0, address := hex_value (Value.int 0) 4, mnemonic := Option.none,
    op_code := Value.none, post_byte := Value.none, additional := Value.none }

/-- Turn a matched group into the Python `group or None` idiom. -/
def strOrNone (l : List Char) : Option String :=
  if l.isEmpty then Option.none else Option.some (String.mk l)

/-- The group matched by atom `i`. -/
def groupAt (gs : List (List Char)) (i : Nat) : List Char := gs.getD i []

/-- Python `Statement.parse_line`: classify the line as blank, comment-only or an
instruction line, populating the statement's parsed fields, or fail with
a `ParseError` carrying the line. -/
def parse_line (st : Statement) (line : String) : Except Err Statement :=
  let l := line.data
  if blankMatches l then Except.ok st
  else
    match matchAtoms commentAtoms l with
    | Option.some gs =>
        Except.ok { st with empty := false, comment_only := true,
                            comment := Option.some (String.mk (stripChars (groupAt gs 3))) }
    | Option.none =>
      match matchAtoms asmAtoms l with
      | Option.some gs =>
          Except.ok { st with
            label := strOrNone (groupAt gs 0),
            mnemonic := strOrNone (groupAt gs 2),
            operand := ⟨Option.some (String.mk (groupAt gs 4))⟩,
            comment := strOrNone (stripChars (groupAt gs 7)),
            empty := false }
      | Option.none =>
          Except.error (Err.parse ("Could not parse line [" ++ line ++ "]") st)

/-- Python `Statement(line)`: construct a fresh statement and parse the line. -/
def statementFromLine (line : String) : Except Err Statement :=
  parse_line initStatement line

/-- Python `Statement.match_operation`: first instruction of the table whose
mnemonic equals the statement's mnemonic (`None` never equals a string). -/
def match_operation (insts : List Instruction) (st : Statement) : Option Instruction :=
  insts.find? (fun op => match st.mnemonic with
    | Option.some m => op.mnemonic == m
    | Option.none => false)

/-- Python `Statement.match_mnemonic`: store a copy of the looked-up descriptor in
the statement, or raise `TranslationError` when there is none. -/
def match_mnemonic (insts : List Instruction) (st : Statement) : Except Err Statement :=
  let st1 := { st with instruction := match_operation insts st }
  match st1.instruction with
  | Option.none =>
      Except.error (Err.translation ("Invalid mnemonic [" ++ fmtOptStr st1.mnemonic ++ "]") st1)
  | Option.some _ => Except.ok st1

/-- The symbol-resolution prefix of `translate`: for a symbol operand,
look the symbol up (unknown symbol raises `TranslationError`) and
substitute an operand built from the resolved address; the result is
`none` when the resolved operand has no printable value (the plain
`return` in the source). -/
def resolveOperand (tbl : SymbolTable) (st : Statement) : Except Err (Option Operand) :=
  if st.operand.is_symbol then
    let symbol := st.operand.get_string_value
    match List.lookup symbol tbl with
    | Option.none =>
        Except.error (Err.translation ("Unknown symbol [" ++ symbol ++ "]") st)
    | Option.some entry =>
        let op : Operand := ⟨Option.some (entryAddress entry)⟩
        if op.get_string_value = "" then Except.ok Option.none
        else Except.ok (Option.some op)
  else Except.ok (Option.some st.operand)

/-- The `if operand.is_inherent():` block of `translate`. -/
def step_inherent (i : Instruction) (op : Operand) (st : Statement) : Except Err Statement :=
  if op.is_inherent then
    if i.mode.supports_inherent then
      Except.ok { st with op_code := valOfOpt i.mode.inh }
    else
      Except.error (Err.translation
        ("Instruction [" ++ fmtOptStr st.mnemonic ++ "] requires an operand") st)
  else Except.ok st

/-- The `if operand.is_immediate():` block of `translate`. -/
def step_immediate (i : Instruction) (op : Operand) (st : Statement) : Except Err Statement :=
  if op.is_immediate then
    if i.mode.supports_immediate then
      Except.ok { st with op_code := valOfOpt i.mode.imm, additional := op.get_immediate }
    else
      Except.error (Err.translation
        ("Instruction [" ++ fmtOptStr st.mnemonic ++ "] does not support immediate addressing") st)
  else Except.ok st

/-- The `if operand.is_extended_indirect():` block of `translate`; the
post-byte is the fixed constant `0x9F`. -/
def step_extended_indirect (i : Instruction) (op : Operand) (st : Statement) :
    Except Err Statement :=
  if op.is_extended_indirect then
    if i.mode.supports_indexed then
      Except.ok { st with op_code := valOfOpt i.mode.ind,
                          additional := op.get_extended_indirect,
                          post_byte := Value.int 159 }
    else
      Except.error (Err.translation
        ("Instruction [" ++ fmtOptStr st.mnemonic ++ "] does not support indexed addressing") st)
  else Except.ok st

/-- The `if operand.is_direct():` block of `translate`. -/
def step_direct (i : Instruction) (op : Operand) (st : Statement) : Except Err Statement :=
  if op.is_direct then
    if i.mode.supports_direct then
      Except.ok { st with op_code := valOfOpt i.mode.dir,
                          additional := Value.str op.get_string_value }
    else
      Except.error (Err.translation
        ("Instruction [" ++ fmtOptStr st.mnemonic ++ "] does not support direct addressing") st)
  else Except.ok st

/-- The `if operand.is_extended():` block of `translate`. -/
def step_extended (i : Instruction) (op : Operand) (st : Statement) : Except Err Statement :=
  if op.is_extended then
    if i.mode.supports_extended then
      Except.ok { st with op_code := valOfOpt i.mode.ext,
                          additional := Value.str op.get_string_value }
    else
      Except.error (Err.translation
        ("Instruction [" ++ fmtOptStr st.mnemonic ++ "] does not support extended addressing") st)
  else Except.ok st

/-- Python `Statement.get_op_codes`: `hex_value(self.op_code) or None`. -/
def Statement.get_op_codes (st : Statement) : Option String :=
  let h := hex_value st.op_code 2
  if h = "" then Option.none else Option.some h

/-- Python `Statement.get_additional`: `hex_value(self.additional) or None`. -/
def Statement.get_additional (st : Statement) : Option String :=
  let h := hex_value st.additional 2
  if h = "" then Option.none else Option.some h

/-- Python `Statement.get_post_byte`: `hex_value(self.post_byte) or None`. -/
def Statement.get_post_byte (st : Statement) : Option String :=
  let h := hex_value st.post_byte 2
  if h = "" then Option.none else Option.some h

/-- One guarded size increment at the end of `translate`:
`if self.x: self.size += int(len(self.get_x()) / 2)`. -/
def sizeContrib (v : Value) : Nat :=
  if v.truthy then (hex_value v 2).length / 2 else 0

/-- The three guarded size increments at the end of `translate`.  The
source performs three sequential `+=`s whose guards do not depend on
`size`, so their net effect is this sum. -/
def computeSize (st : Statement) : Statement :=
  { st with size := st.size + sizeContrib st.op_code + sizeContrib st.additional
                    + sizeContrib st.post_byte }

/-- The addressing-mode section of `translate`: the five sequential
`if`-blocks followed by the size computation. -/
def addrSteps (i : Instruction) (op : Operand) (st : Statement) : Except Err Statement :=
  match step_inherent i op st with
  | Except.error e => Except.error e
  | Except.ok st1 =>
    match step_immediate i op st1 with
    | Except.error e => Except.error e
    | Except.ok st2 =>
      match step_extended_indirect i op st2 with
      | Except.error e => Except.error e
      | Except.ok st3 =>
        match step_direct i op st3 with
        | Except.error e => Except.error e
        | Except.ok st4 =>
          match step_extended i op st4 with
          | Except.error e => Except.error e
          | Except.ok st5 => Except.ok (computeSize st5)

/-- Python `Statement.translate` with the descriptor already resolved: the ordered
decision procedure — pseudo-op, special op, symbol substitution,
branch/relative, then the addressing-mode blocks and size computation. -/
def translateWith (i : Instruction) (tbl : SymbolTable) (st : Statement) :
    Except Err Statement :=
  if i.is_pseudo then
    Except.ok { st with additional := i.translate_pseudo (st.label.getD "") st.operand tbl }
  else if i.is_special then
    Except.ok { st with post_byte := i.translate_special st.operand }
  else
    match resolveOperand tbl st with
    | Except.error e => Except.error e
    | Except.ok Option.none => Except.ok st
    | Except.ok (Option.some op) =>
      if i.is_branch_operation then
        Except.ok { st with op_code := valOfOpt i.mode.rel }
      else addrSteps i op st

/-- Python `Statement.translate`: dereference `self.instruction` (an
`AttributeError` in Python when it was never set) and run the decision
procedure. -/
def translate (tbl : SymbolTable) (st : Statement) : Except Err Statement :=
  match st.instruction with
  | Option.none => Except.error Err.attributeFailure
  | Option.some i => translateWith i tbl st

/-- The driver-level sequence for one statement: `match_mnemonic` then
`translate`, with the instruction table threaded through explicitly —
the code only ever reads the table (and stores a copy of the found
descriptor), so the returned table is the one passed in. -/
def matchAndTranslate (insts : List Instruction) (tbl : SymbolTable) (st : Statement) :
    List Instruction × Except Err Statement :=
  (insts,
   match match_mnemonic insts st with
   | Except.error e => Except.error e
   | Except.ok st1 => translate tbl st1)

/-- Byte length of a rendered optional hex string (`None` contributes 0). -/
def optStrLen : Option String → Nat
  | Option.none => 0
  | Option.some s => s.length / 2

/-- Decoding the rendered hex strings of the three encoding fields back to
byte counts, summed: the quantity the spec's round-trip property compares
with `size`. -/
def decodedByteSum (st : Statement) : Nat :=
  optStrLen st.get_op_codes + optStrLen st.get_additional + optStrLen st.get_post_byte

/-- The `size` of a successfully translated statement. -/
def resultSize : Except Err Statement → Option Nat
  | Except.ok st => Option.some st.size
  | Except.error _ => Option.none

/-- The decoded byte sum of a successfully translated statement. -/
def resultByteSum : Except Err Statement → Option Nat
  | Except.ok st => Option.some (decodedByteSum st)
  | Except.error _ => Option.none

/-- Whether a translation attempt failed with a `TranslationError`. -/
def isTranslationErr : Except Err Statement → Bool
  | Except.error (Err.translation _ _) => true
  | _ => false

/-- The `op_code` field of a successfully translated statement. -/
def resultOpCode : Except Err Statement → Option Value
  | Except.ok st => Option.some st.op_code
  | Except.error _ => Option.none

/-- The `additional` field of a successfully translated statement. -/
def resultAdditional : Except Err Statement → Option Value
  | Except.ok st => Option.some st.additional
  | Except.error _ => Option.none

/-- The `post_byte` field of a successfully translated statement. -/
def resultPostByte : Except Err Statement → Option Value
  | Except.ok st => Option.some st.post_byte
  | Except.error _ => Option.none

/-- The fields of a statement that `translate` never writes: everything
except `op_code`, `post_byte`, `additional` and `size`. -/
def framePreserved (a b : Statement) : Prop :=
  b.empty = a.empty ∧ b.comment_only = a.comment_only ∧
  b.instruction = a.instruction ∧ b.label = a.label ∧ b.operand = a.operand ∧
  b.comment = a.comment ∧ b.address = a.address ∧ b.mnemonic = a.mnemonic

/-- Concrete example descriptor: `LDA`, a load instruction supporting the
immediate (0x86), direct (0x96), indexed (0xA6) and extended (0xB6)
addressing modes. -/
def ldaInstruction : Instruction :=
  { mnemonic := "LDA",
    mode := { inh := Option.none, imm := Option.some 0x86, dir := Option.some 0x96,
              ind := Option.some 0xA6, ext := Option.some 0xB6, rel := Option.none },
    is_pseudo := false, is_special := false, is_branch_operation := false,
    translate_pseudo := fun _ _ _ => Value.none,
    translate_special := fun _ => Value.none }

/-- Concrete example descriptor: `BRA`, a branch operation with relative
opcode 0x20. -/
def braInstruction : Instruction :=
  { mnemonic := "BRA",
    mode := { inh := Option.none, imm := Option.none, dir := Option.none,
              ind := Option.none, ext := Option.none, rel := Option.some 0x20 },
    is_pseudo := false, is_special := false, is_branch_operation := true,
    translate_pseudo := fun _ _ _ => Value.none,
    translate_special := fun _ => Value.none }

/-- Concrete example descriptor: `CLRA`, supporting only the inherent mode
(opcode 0x4F). -/
def clraInstruction : Instruction :=
  { mnemonic := "CLRA",
    mode := { inh := Option.some 0x4F, imm := Option.none, dir := Option.none,
              ind := Option.none, ext := Option.none, rel := Option.none },
    is_pseudo := false, is_special := false, is_branch_operation := false,
    translate_pseudo := fun _ _ _ => Value.none,
    translate_special := fun _ => Value.none }

/-- A freshly parsed statement `LDA #$05`. -/
def stImm5 : Statement :=
  { initStatement with mnemonic := Option.some "LDA", operand := ⟨Option.some "#$05"⟩ }

/-- A freshly parsed statement `LDA #$00`. -/
def stImm0 : Statement :=
  { initStatement with mnemonic := Option.some "LDA", operand := ⟨Option.some "#$00"⟩ }

/-- A freshly parsed statement `BRA $1234`. -/
def stBra : Statement :=
  { initStatement with mnemonic := Option.some "BRA", operand := ⟨Option.some "$1234"⟩ }

/-- A freshly parsed statement `CLRA` with empty operand. -/
def stClra : Statement := { initStatement with mnemonic := Option.some "CLRA" }

/-- A freshly parsed statement `CLRA #$05` (an operand the instruction
cannot take). -/
def stClraImm : Statement :=
  { initStatement with mnemonic := Option.some "CLRA", operand := ⟨Option.some "#$05"⟩ }

/-- A freshly parsed statement `LDA [$FFEE]`. -/
def stExtInd : Statement :=
  { initStatement with mnemonic := Option.some "LDA", operand := ⟨Option.some "[$FFEE]"⟩ }

/-- A freshly parsed statement `CLRA [$FFEE]`. -/
def stClraExtInd : Statement :=
  { initStatement with mnemonic := Option.some "CLRA", operand := ⟨Option.some "[$FFEE]"⟩ }

/-- A freshly parsed statement `LDA BUZZ` (symbol operand). -/
def stSym : Statement :=
  { initStatement with mnemonic := Option.some "LDA", operand := ⟨Option.some "BUZZ"⟩ }

/-- The example line of the specification. -/
def exampleLine : String := "LOOP    LDA     #$05        ; load"

/-- The expected parse of `exampleLine`. -/
def exampleStatement : Statement :=
  { initStatement with
    empty := false,
    label := Option.some "LOOP",
    mnemonic := Option.some "LDA",
    operand := ⟨Option.some "#$05"⟩,
    comment := Option.some "load" }

/-- The translation result of `LDA #$05`. -/
def stImm5Translated : Statement :=
  computeSize { stImm5 with op_code := Value.int 0x86, additional := Value.int 5 }

/-- Whether a parse attempt succeeded. -/
def parseSucceeded : Except Err Statement → Bool
  | Except.ok _ => true
  | Except.error _ => false

lemma frame_refl (a : Statement) : framePreserved a a :=
  ⟨rfl, rfl, rfl, rfl, rfl, rfl, rfl, rfl⟩

lemma frame_trans {a b c : Statement} (h1 : framePreserved a b) (h2 : framePreserved b c) :
    framePreserved a c :=
  ⟨h2.1.trans h1.1, h2.2.1.trans h1.2.1, h2.2.2.1.trans h1.2.2.1,
   h2.2.2.2.1.trans h1.2.2.2.1, h2.2.2.2.2.1.trans h1.2.2.2.2.1,
   h2.2.2.2.2.2.1.trans h1.2.2.2.2.2.1, h2.2.2.2.2.2.2.1.trans h1.2.2.2.2.2.2.1,
   h2.2.2.2.2.2.2.2.trans h1.2.2.2.2.2.2.2⟩

lemma inherent_shape (o : Operand) (h : o.is_inherent = true) :
    o.is_immediate = false ∧ o.is_direct = false ∧ o.is_extended_indirect = false ∧
    o.is_symbol = false ∧ o.is_extended = false := by
  have hc : o.chars = [] := by
    simpa [Operand.is_inherent, List.isEmpty_iff] using h
  refine ⟨?_, ?_, ?_, ?_, ?_⟩ <;>
    simp [Operand.is_immediate, Operand.is_direct, Operand.is_extended_indirect,
          Operand.is_symbol, Operand.is_extended, Operand.is_inherent, hc]

lemma imm_shape (o : Operand) (h : o.is_immediate = true) :
    o.is_inherent = false ∧ o.is_direct = false ∧ o.is_extended_indirect = false ∧
    o.is_symbol = false ∧ o.is_extended = false := by
  have hh : o.chars.head? = Option.some '#' := eq_of_beq h
  have halpha : ('#').isAlpha = false := by decide
  refine ⟨?_, ?_, ?_, ?_, ?_⟩
  · cases hc : o.chars with
    | nil => rw [hc] at hh; simp at hh
    | cons c cs => simp [Operand.is_inherent, hc]
  · simp [Operand.is_direct, hh]
  · simp [Operand.is_extended_indirect, hh]
  · simp [Operand.is_symbol, hh, halpha]
  · simp [Operand.is_extended, h]

lemma dir_shape (o : Operand) (h : o.is_direct = true) :
    o.is_immediate = false ∧ o.is_extended_indirect = false ∧ o.is_symbol = false := by
  have hh : o.chars.head? = Option.some '<' := eq_of_beq h
  have halpha : ('<').isAlpha = false := by decide
  refine ⟨?_, ?_, ?_⟩
  · simp [Operand.is_immediate, hh]
  · simp [Operand.is_extended_indirect, hh]
  · simp [Operand.is_symbol, hh, halpha]

lemma extind_shape (o : Operand) (h : o.is_extended_indirect = true) :
    o.is_inherent = false ∧ o.is_immediate = false ∧ o.is_direct = false ∧
    o.is_symbol = false ∧ o.is_extended = false := by
  have hh : o.chars.head? = Option.some '[' := by
    have := h
    unfold Operand.is_extended_indirect at this
    exact eq_of_beq (Bool.and_elim_left this)
  have halpha : ('[').isAlpha = false := by decide
  refine ⟨?_, ?_, ?_, ?_, ?_⟩
  · cases hc : o.chars with
    | nil => rw [hc] at hh; simp at hh
    | cons c cs => simp [Operand.is_inherent, hc]
  · simp [Operand.is_immediate, hh]
  · simp [Operand.is_direct, hh]
  · simp [Operand.is_symbol, hh, halpha]
  · simp [Operand.is_extended, h]

lemma ext_shape (o : Operand) (h : o.is_extended = true) :
    o.is_inherent = false ∧ o.is_immediate = false ∧ o.is_direct = false ∧
    o.is_extended_indirect = false := by
  unfold Operand.is_extended at h
  simp only [Bool.and_eq_true, Bool.not_eq_true'] at h
  exact ⟨by simp [Operand.is_inherent, h.1.1.1], h.1.1.2, h.1.2, h.2⟩

lemma operand_shape (o : Operand) (h : o.is_inherent = false) :
    o.is_immediate = true ∨ o.is_direct = true ∨ o.is_extended_indirect = true ∨
    o.is_extended = true := by
  cases himm : o.is_immediate with
  | true => exact Or.inl rfl
  | false =>
    cases hdir : o.is_direct with
    | true => exact Or.inr (Or.inl rfl)
    | false =>
      cases hexti : o.is_extended_indirect with
      | true => exact Or.inr (Or.inr (Or.inl rfl))
      | false =>
        refine Or.inr (Or.inr (Or.inr ?_))
        have hne : o.chars.isEmpty = false := by
          simpa [Operand.is_inherent] using h
        simp [Operand.is_extended, himm, hdir, hexti, hne]

lemma step_inherent_ok (i : Instruction) (op : Operand) (st st1 : Statement)
    (h : step_inherent i op st = Except.ok st1) :
    framePreserved st st1 ∧ st1.size = st.size := by
  unfold step_inherent at h
  split at h
  · split at h
    · injection h with h
      subst h
      exact ⟨frame_refl _, rfl⟩
    · exact Except.noConfusion h
  · injection h with h
    subst h
    exact ⟨frame_refl _, rfl⟩

lemma step_immediate_ok (i : Instruction) (op : Operand) (st st1 : Statement)
    (h : step_immediate i op st = Except.ok st1) :
    framePreserved st st1 ∧ st1.size = st.size := by
  unfold step_immediate at h
  split at h
  · split at h
    · injection h with h
      subst h
      exact ⟨frame_refl _, rfl⟩
    · exact Except.noConfusion h
  · injection h with h
    subst h
    exact ⟨frame_refl _, rfl⟩

lemma step_extended_indirect_ok (i : Instruction) (op : Operand) (st st1 : Statement)
    (h : step_extended_indirect i op st = Except.ok st1) :
    framePreserved st st1 ∧ st1.size = st.size := by
  unfold step_extended_indirect at h
  split at h
  · split at h
    · injection h with h
      subst h
      exact ⟨frame_refl _, rfl⟩
    · exact Except.noConfusion h
  · injection h with h
    subst h
    exact ⟨frame_refl _, rfl⟩

lemma step_direct_ok (i : Instruction) (op : Operand) (st st1 : Statement)
    (h : step_direct i op st = Except.ok st1) :
    framePreserved st st1 ∧ st1.size = st.size := by
  unfold step_direct at h
  split at h
  · split at h
    · injection h with h
      subst h
      exact ⟨frame_refl _, rfl⟩
    · exact Except.noConfusion h
  · injection h with h
    subst h
    exact ⟨frame_refl _, rfl⟩

lemma step_extended_ok (i : Instruction) (op : Operand) (st st1 : Statement)
    (h : step_extended i op st = Except.ok st1) :
    framePreserved st st1 ∧ st1.size = st.size := by
  unfold step_extended at h
  split at h
  · split at h
    · injection h with h
      subst h
      exact ⟨frame_refl _, rfl⟩
    · exact Except.noConfusion h
  · injection h with h
    subst h
    exact ⟨frame_refl _, rfl⟩

lemma computeSize_frame (st : Statement) : framePreserved st (computeSize st) :=
  ⟨rfl, rfl, rfl, rfl, rfl, rfl, rfl, rfl⟩

lemma truthy_false_hex (v : Value) (h : v.truthy = false) : hex_value v 2 = "" := by
  cases v with
  | none => rfl
  | int n =>
    have : n = 0 := by simpa [Value.truthy] using h
    simp [hex_value, this]
  | str s =>
    have : s = "" := by simpa [Value.truthy] using h
    simp [hex_value, this]

lemma sizeContrib_eq (v : Value) :
    sizeContrib v =
      optStrLen (if hex_value v 2 = "" then Option.none else Option.some (hex_value v 2)) := by
  cases ht : v.truthy with
  | false =>
    rw [truthy_false_hex v ht]
    simp [sizeContrib, ht, optStrLen]
  | true =>
    by_cases hh : hex_value v 2 = ""
    · simp [sizeContrib, ht, hh, optStrLen]
    · simp [sizeContrib, ht, hh, optStrLen]

lemma size_roundtrip_computeSize (st : Statement) (h : st.size = 0) :
    (computeSize st).size = decodedByteSum (computeSize st) := by
  have hd : decodedByteSum (computeSize st) = decodedByteSum st := rfl
  rw [hd]
  show st.size + sizeContrib st.op_code + sizeContrib st.additional + sizeContrib st.post_byte
      = decodedByteSum st
  rw [h, sizeContrib_eq, sizeContrib_eq, sizeContrib_eq]
  simp [decodedByteSum, Statement.get_op_codes, Statement.get_additional,
        Statement.get_post_byte]

lemma addrSteps_case (i : Instruction) (op : Operand) (st st' : Statement)
    (h : addrSteps i op st = Except.ok st') :
    ∃ stm, st' = computeSize stm ∧ framePreserved st stm ∧ stm.size = st.size := by
  unfold addrSteps at h
  split at h
  · exact Except.noConfusion h
  · rename_i st1 h1
    split at h
    · exact Except.noConfusion h
    · rename_i st2 h2
      split at h
      · exact Except.noConfusion h
      · rename_i st3 h3
        split at h
        · exact Except.noConfusion h
        · rename_i st4 h4
          split at h
          · exact Except.noConfusion h
          · rename_i st5 h5
            injection h with h
            obtain ⟨f1, s1⟩ := step_inherent_ok i op st st1 h1
            obtain ⟨f2, s2⟩ := step_immediate_ok i op st1 st2 h2
            obtain ⟨f3, s3⟩ := step_extended_indirect_ok i op st2 st3 h3
            obtain ⟨f4, s4⟩ := step_direct_ok i op st3 st4 h4
            obtain ⟨f5, s5⟩ := step_extended_ok i op st4 st5 h5
            refine ⟨st5, h.symm, ?_, ?_⟩
            · exact frame_trans (frame_trans (frame_trans (frame_trans f1 f2) f3) f4) f5
            · rw [s5, s4, s3, s2, s1]

lemma resolveOperand_not_symbol (tbl : SymbolTable) (st : Statement)
    (h : st.operand.is_symbol = false) :
    resolveOperand tbl st = Except.ok (Option.some st.operand) := by
  simp [resolveOperand, h]

lemma entryAddress_facts (e : String) (hw : e.data.all isWordChar = true) :
    entryAddress e ≠ "" ∧ (entryAddress e).data.all isWordChar = true := by
  unfold entryAddress
  by_cases he : e = ""
  · simp [he]
    decide
  · simp [he]
    simpa using hw

lemma opFromStr_facts (a : String) (ha : a ≠ "") (hw : a.data.all isWordChar = true) :
    (Operand.mk (Option.some a)).is_inherent = false ∧
    (Operand.mk (Option.some a)).get_string_value = a := by
  have hchars : (Operand.mk (Option.some a)).chars = a.data := rfl
  cases hd : a.data with
  | nil =>
    exact absurd (String.ext (hd.trans rfl) : a = "") ha
  | cons c cs =>
    have hcw : isWordChar c = true := by
      have h2 := hw
      rw [hd] at h2
      simp [List.all_cons] at h2
      exact h2.1
    have hbeq : ((c :: cs).head? == Option.some '<') = false := by
      cases hq : (Option.some c == Option.some '<') with
      | false => simpa using hq
      | true =>
        exfalso
        have hc : c = '<' := by
          have := eq_of_beq hq
          injection this
        rw [hc] at hcw
        exact absurd hcw (by decide)
    constructor
    · simp [Operand.is_inherent, hchars, hd]
    · rw [Operand.get_string_value, hchars, hd]
      rw [hbeq]
      simp
      rw [← hd]

lemma resolveOperand_resolved (tbl : SymbolTable) (st : Statement) (e : String)
    (hsym : st.operand.is_symbol = true)
    (hlook : List.lookup st.operand.get_string_value tbl = Option.some e)
    (hw : e.data.all isWordChar = true) :
    resolveOperand tbl st = Except.ok (Option.some ⟨Option.some (entryAddress e)⟩) ∧
    (Operand.mk (Option.some (entryAddress e))).is_inherent = false := by
  obtain ⟨hne, hwa⟩ := entryAddress_facts e hw
  obtain ⟨hinh, hgsv⟩ := opFromStr_facts (entryAddress e) hne hwa
  refine ⟨?_, hinh⟩
  simp [resolveOperand, hsym, hlook, hgsv, hne]

lemma addrSteps_err_of_unsupported (i : Instruction) (op : Operand) (st : Statement)
    (himm : i.mode.imm = Option.none) (hdir : i.mode.dir = Option.none)
    (hind : i.mode.ind = Option.none) (hext : i.mode.ext = Option.none)
    (hni : op.is_inherent = false) :
    isTranslationErr (addrSteps i op st) = true := by
  rcases operand_shape op hni with hsh | hsh | hsh | hsh
  · simp [addrSteps, step_inherent, hni, step_immediate, hsh,
          Mode.supports_immediate, himm, isTranslationErr]
  · obtain ⟨f1, f2, _⟩ := dir_shape op hsh
    simp [addrSteps, step_inherent, hni, step_immediate, f1,
          step_extended_indirect, f2, step_direct, hsh,
          Mode.supports_direct, hdir, isTranslationErr]
  · obtain ⟨_, f1, _, _, _⟩ := extind_shape op hsh
    simp [addrSteps, step_inherent, hni, step_immediate, f1,
          step_extended_indirect, hsh, Mode.supports_indexed, hind, isTranslationErr]
  · obtain ⟨_, f1, f2, f3⟩ := ext_shape op hsh
    simp [addrSteps, step_inherent, hni, step_immediate, f1,
          step_extended_indirect, f3, step_direct, f2, step_extended, hsh,
          Mode.supports_extended, hext, isTranslationErr]

lemma takeWhile_eq_self_of_all {p : Char → Bool} (l : List Char) (h : l.all p = true) :
    l.takeWhile p = l := by
  induction l with
  | nil => rfl
  | cons c cs ih =>
    rw [List.all_cons, Bool.and_eq_true] at h
    simp [List.takeWhile_cons, h.1, ih h.2]

lemma blankMatches_of_all_space (l : List Char) (h : l.all isSpaceChar = true) :
    blankMatches l = true := by
  have hpre : l.takeWhile isSpaceChar = l := takeWhile_eq_self_of_all l h
  cases l with
  | nil => rfl
  | cons c cs =>
    show (matchAtoms blankAtoms (c :: cs)).isSome = true
    unfold blankAtoms matchAtoms
    rw [hpre]
    simp only [Option.getD, Nat.min_self, List.length_cons, Nat.not_lt_zero, if_false]
    rw [tryLens]
    simp [List.drop_length, matchAtoms]

lemma natToHexAux_zero (fuel : Nat) (acc : List Char) : natToHexAux fuel 0 acc = acc := by
  cases fuel with
  | zero => rfl
  | succ k => simp [natToHexAux]

lemma natToHex_byte_length (n : Nat) (h1 : 0 < n) (h2 : n < 256) :
    (natToHex n).length ≤ 2 := by
  unfold natToHex
  cases n with
  | zero => omega
  | succ m =>
    rw [natToHexAux]
    simp only [Nat.succ_ne_zero, if_false]
    by_cases hq : (m + 1) / 16 = 0
    · rw [hq, natToHexAux_zero]
      simp
    · have h16 : 16 ≤ m + 1 := by
        by_contra hlt
        exact hq (Nat.div_eq_of_lt (by omega))
      cases m with
      | zero => omega
      | succ k =>
        rw [natToHexAux]
        rw [if_neg hq]
        have hz : (k + 1 + 1) / 16 / 16 = 0 := by
          rw [Nat.div_div_eq_div_mul]
          exact Nat.div_eq_of_lt (by omega)
        rw [hz, natToHexAux_zero]
        simp

lemma hex_int_byte_len (n : Nat) (h1 : 0 < n) (h2 : n < 256) :
    (hex_value (Value.int n) 2).length = 2 := by
  have hne : ¬ n = 0 := by omega
  have hlen := natToHex_byte_length n h1 h2
  simp [hex_value, hne, padLeftZeros, String.length]
  omega

lemma sizeContrib_int_byte (n : Nat) (h1 : 0 < n) (h2 : n < 256) :
    sizeContrib (Value.int n) = 1 := by
  have hl := hex_int_byte_len n h1 h2
  have ht : (Value.int n).truthy = true := by
    simp [Value.truthy]
    omega
  simp [sizeContrib, ht, hl]

lemma set_instruction_none (st : Statement) (h : st.instruction = Option.none) :
    ({ st with instruction := Option.none } : Statement) = st := by
  cases st
  simp_all

/-- C7: mnemonic resolution and translation never change the shared
instruction table.  The embedding threads the table through the
driver-level step explicitly; the code only ever reads it (and
`match_mnemonic` stores a copy of the found descriptor in the statement),
so the table — and hence every descriptor in it — comes back unchanged. -/
theorem instruction_table_unchanged (insts : List Instruction) (tbl : SymbolTable)
    (st : Statement) :
    (matchAndTranslate insts tbl st).1 = insts ∧
    ∀ k, ((matchAndTranslate insts tbl st).1).get? k = insts.get? k :=
  ⟨rfl, fun _ => rfl⟩

/-- C3: when the mnemonic has no descriptor in the instruction table, the
match-then-translate sequence fails with a `TranslationError` (not a
`ParseError` and not the missing-instruction failure) whose message names
the mnemonic, and the statement carried in the error is the input
statement itself — in particular its encoding fields are untouched. -/
theorem unknown_mnemonic_error (insts : List Instruction) (tbl : SymbolTable) (st : Statement)
    (hfind : match_operation insts st = Option.none)
    (hinst : st.instruction = Option.none) :
    (matchAndTranslate insts tbl st).2 =
      Except.error (Err.translation ("Invalid mnemonic [" ++ fmtOptStr st.mnemonic ++ "]") st) := by
  have heta := set_instruction_none st hinst
  simp [matchAndTranslate, match_mnemonic, hfind, heta]

/-- Witness for C3 at a concrete input: the statement `LDA #$05` against
an empty instruction table. -/
theorem unknown_mnemonic_witness :
    (matchAndTranslate [] [] stImm5).2 =
      Except.error (Err.translation ("Invalid mnemonic [" ++ fmtOptStr stImm5.mnemonic ++ "]")
        stImm5) :=
  unknown_mnemonic_error [] [] stImm5 rfl rfl

/-- C4: for a non-pseudo, non-special descriptor and a bare-symbol operand
absent from the symbol table, `translate` fails with a `TranslationError`
whose message names the symbol; the statement carried in the error is the
input statement itself, so its encoding fields remain unset. -/
theorem unknown_symbol_error (i : Instruction) (tbl : SymbolTable) (st : Statement)
    (hp : i.is_pseudo = false) (hs : i.is_special = false)
    (hsym : st.operand.is_symbol = true)
    (hlook : List.lookup st.operand.get_string_value tbl = Option.none) :
    translateWith i tbl st =
      Except.error (Err.translation
        ("Unknown symbol [" ++ st.operand.get_string_value ++ "]") st) := by
  simp [translateWith, hp, hs, resolveOperand, hsym, hlook]

/-- Witness for C4 at a concrete input: `LDA BUZZ` with an empty symbol
table. -/
theorem unknown_symbol_witness :
    translateWith ldaInstruction [] stSym =
      Except.error (Err.translation
        ("Unknown symbol [" ++ stSym.operand.get_string_value ++ "]") stSym) :=
  unknown_symbol_error ldaInstruction [] stSym rfl rfl rfl rfl

/-- C8: a line of only whitespace (including the empty line) parses
successfully into the freshly initialised statement: marked empty, no
label, no mnemonic, no comment, inherent (empty) operand, size 0, and no
encoding fields set. -/
theorem blank_line_parse (line : String) (h : line.data.all isSpaceChar = true) :
    statementFromLine line = Except.ok initStatement ∧
    initStatement.empty = true ∧ initStatement.label = Option.none ∧
    initStatement.mnemonic = Option.none ∧ initStatement.comment = Option.none ∧
    initStatement.operand.is_inherent = true ∧ initStatement.size = 0 ∧
    initStatement.op_code = Value.none ∧ initStatement.post_byte = Value.none ∧
    initStatement.additional = Value.none := by
  refine ⟨?_, rfl, rfl, rfl, rfl, rfl, rfl, rfl, rfl, rfl⟩
  have hb := blankMatches_of_all_space line.data h
  simp [statementFromLine, parse_line, hb]

/-- Witness for C8 at a concrete input: a line of three spaces. -/
theorem blank_line_parse_witness :
    statementFromLine "   " = Except.ok initStatement ∧
    initStatement.empty = true ∧ initStatement.label = Option.none ∧
    initStatement.mnemonic = Option.none ∧ initStatement.comment = Option.none ∧
    initStatement.operand.is_inherent = true ∧ initStatement.size = 0 ∧
    initStatement.op_code = Value.none ∧ initStatement.post_byte = Value.none ∧
    initStatement.additional = Value.none :=
  blank_line_parse "   " (by decide)

/-- C9: a line fails to parse exactly when it matches none of the three
grammars (blank, comment-only, instruction), and in that case the failure
is a `ParseError` carrying the original line text and the statement; every
line matching one of the grammars parses successfully, and no other kind
of failure exists. -/
theorem parse_error_characterization (line : String) :
    (statementFromLine line =
        Except.error (Err.parse ("Could not parse line [" ++ line ++ "]") initStatement)
      ↔ blankMatches line.data = false ∧ matchAtoms commentAtoms line.data = Option.none ∧
        matchAtoms asmAtoms line.data = Option.none) ∧
    (parseSucceeded (statementFromLine line) = true ∨
      statementFromLine line =
        Except.error (Err.parse ("Could not parse line [" ++ line ++ "]") initStatement)) := by
  unfold statementFromLine parse_line
  cases hb : blankMatches line.data with
  | true => simp [parseSucceeded, hb]
  | false =>
    cases hc : matchAtoms commentAtoms line.data with
    | some gs => simp [parseSucceeded, hb, hc]
    | none =>
      cases ha : matchAtoms asmAtoms line.data with
      | some gs => simp [parseSucceeded, hb, hc, ha]
      | none => simp [parseSucceeded, hb, hc, ha]

/-- Counterexample to C1 as stated: a branch/relative operation returns
from `translate` before the size computation runs, so the translation
succeeds with `size = 0` although the rendered opcode decodes to one
byte. -/
theorem size_roundtrip_counterexample :
    resultSize (translateWith braInstruction [] stBra) = Option.some 0 ∧
    resultByteSum (translateWith braInstruction [] stBra) = Option.some 1 :=
  ⟨rfl, rfl⟩

/-- C1 (amended): for non-pseudo, non-special, non-branch descriptors —
the addressing-mode path, the only path that reaches the size
computation — a freshly parsed statement that translates successfully
satisfies the round-trip property: `size` equals the summed byte counts
decoded back from the rendered `opcode` / `additional` / `post_byte` hex
strings. -/
theorem size_roundtrip_amended (i : Instruction) (tbl : SymbolTable) (st st' : Statement)
    (hp : i.is_pseudo = false) (hs : i.is_special = false)
    (hbr : i.is_branch_operation = false)
    (hsz : st.size = 0) (ho : st.op_code = Value.none) (hpb : st.post_byte = Value.none)
    (ha : st.additional = Value.none)
    (h : translateWith i tbl st = Except.ok st') :
    st'.size = decodedByteSum st' := by
  simp only [translateWith, hp, hs, Bool.false_eq_true, if_false] at h
  split at h
  · exact Except.noConfusion h
  · injection h with h
    subst h
    simp [decodedByteSum, Statement.get_op_codes, Statement.get_additional,
          Statement.get_post_byte, ho, hpb, ha, hex_value, optStrLen, hsz]
  · rename_i op heq
    simp only [hbr, Bool.false_eq_true, if_false] at h
    obtain ⟨stm, rfl, fr, hsm⟩ := addrSteps_case i op st st' h
    exact size_roundtrip_computeSize stm (hsm.trans hsz)

/-- Witness for C1 (amended) at a concrete input: `LDA #$05`. -/
theorem size_roundtrip_witness :
    stImm5Translated.size = decodedByteSum stImm5Translated :=
  size_roundtrip_amended ldaInstruction [] stImm5 stImm5Translated
    rfl rfl rfl rfl rfl rfl rfl rfl

/-- C10: `translate` writes only the `op_code`, `post_byte`, `additional`
and `size` fields: for every non-pseudo, non-special descriptor, a
successful translation leaves `empty`, `comment_only`, `instruction`,
`label`, `operand`, `comment`, `address` and `mnemonic` exactly as they
were — in particular symbol resolution substitutes the operand only in a
local value, never in the statement. -/
theorem translate_frame_effect (i : Instruction) (tbl : SymbolTable) (st st' : Statement)
    (hp : i.is_pseudo = false) (hs : i.is_special = false)
    (h : translateWith i tbl st = Except.ok st') :
    framePreserved st st' := by
  simp only [translateWith, hp, hs, Bool.false_eq_true, if_false] at h
  split at h
  · exact Except.noConfusion h
  · injection h with h
    subst h
    exact frame_refl st
  · rename_i op heq
    cases hbr : i.is_branch_operation with
    | true =>
      simp only [hbr, if_true] at h
      injection h with h
      subst h
      exact ⟨rfl, rfl, rfl, rfl, rfl, rfl, rfl, rfl⟩
    | false =>
      simp only [hbr, Bool.false_eq_true, if_false] at h
      obtain ⟨stm, rfl, fr, _⟩ := addrSteps_case i op st st' h
      exact frame_trans fr (computeSize_frame stm)

/-- Witness for C10 at a concrete input: `LDA #$05`. -/
theorem translate_frame_witness : framePreserved stImm5 stImm5Translated :=
  translate_frame_effect ldaInstruction [] stImm5 stImm5Translated rfl rfl rfl

/-- C2: for a non-pseudo, non-special, non-branch descriptor supporting
only the inherent addressing mode, translating with an empty (inherent)
operand succeeds, sets the opcode to the descriptor's inherent value and
leaves `additional` unset; translating with any non-empty operand —
immediate, extended-indirect, direct, extended, or a symbol that resolves
(to a statement address, a non-empty word-character string) — fails with a
`TranslationError`. -/
theorem inherent_only_behaviour (i : Instruction) (tbl : SymbolTable) (st : Statement)
    (v : Nat)
    (hp : i.is_pseudo = false) (hs : i.is_special = false)
    (hbr : i.is_branch_operation = false)
    (hinh : i.mode.inh = Option.some v) (himm : i.mode.imm = Option.none)
    (hdir : i.mode.dir = Option.none) (hind : i.mode.ind = Option.none)
    (hext : i.mode.ext = Option.none) (ha : st.additional = Value.none) :
    (st.operand.is_inherent = true →
      resultOpCode (translateWith i tbl st) = Option.some (Value.int v) ∧
      resultAdditional (translateWith i tbl st) = Option.some Value.none) ∧
    (st.operand.is_inherent = false →
      (st.operand.is_symbol = true →
        ∃ e, List.lookup st.operand.get_string_value tbl = Option.some e ∧
             e.data.all isWordChar = true) →
      isTranslationErr (translateWith i tbl st) = true) := by
  constructor
  · intro hop
    obtain ⟨f1, f2, f3, f4, f5⟩ := inherent_shape st.operand hop
    have hres := resolveOperand_not_symbol tbl st f4
    simp [translateWith, hp, hs, hres, hbr, addrSteps, step_inherent, hop,
          Mode.supports_inherent, hinh, valOfOpt, step_immediate, f1,
          step_extended_indirect, f3, step_direct, f2, step_extended, f5,
          resultOpCode, resultAdditional, computeSize, ha]
  · intro hop hsymres
    cases hsym : st.operand.is_symbol with
    | false =>
      have hres := resolveOperand_not_symbol tbl st hsym
      have herr := addrSteps_err_of_unsupported i st.operand st himm hdir hind hext hop
      simp [translateWith, hp, hs, hres, hbr, herr]
    | true =>
      obtain ⟨e, hlook, hw⟩ := hsymres hsym
      obtain ⟨hres, hinhR⟩ := resolveOperand_resolved tbl st e hsym hlook hw
      have herr := addrSteps_err_of_unsupported i ⟨Option.some (entryAddress e)⟩ st
        himm hdir hind hext hinhR
      simp [translateWith, hp, hs, hres, hbr, herr]

/-- Witness for C2 at concrete inputs: `CLRA` with an empty operand
succeeds with opcode 0x4F and no `additional`; `CLRA #$05` fails with a
`TranslationError`. -/
theorem inherent_only_witness :
    (resultOpCode (translateWith clraInstruction [] stClra) = Option.some (Value.int 0x4F) ∧
     resultAdditional (translateWith clraInstruction [] stClra) = Option.some Value.none) ∧
    isTranslationErr (translateWith clraInstruction [] stClraImm) = true :=
  ⟨(inherent_only_behaviour clraInstruction [] stClra 0x4F
      rfl rfl rfl rfl rfl rfl rfl rfl rfl).1 rfl,
   (inherent_only_behaviour clraInstruction [] stClraImm 0x4F
      rfl rfl rfl rfl rfl rfl rfl rfl rfl).2 rfl
     (fun hsym => absurd hsym (by decide))⟩

/-- Counterexample to the size clause of C5: `LDA #$00` is an immediate
operand on a descriptor supporting immediate mode, yet translation
succeeds with `size = 1`, not 2 — the falsy immediate value 0 skips the
`additional` size increment. -/
theorem immediate_size_counterexample :
    stImm0.operand.is_immediate = true ∧
    ldaInstruction.mode.imm = Option.some 0x86 ∧
    resultSize (translateWith ldaInstruction [] stImm0) = Option.some 1 ∧
    resultSize (translateWith ldaInstruction [] stImm0) ≠ Option.some 2 :=
  ⟨rfl, rfl, rfl, by decide⟩

/-- C5 (amended): the example line parses to label `LOOP`, mnemonic `LDA`,
an immediate operand of value 5 and comment `load`; and for any statement
with an immediate operand and a descriptor supporting immediate mode,
provided the immediate opcode and the immediate value each encode to a
single non-zero byte (1–255), translation sets the opcode to the
descriptor's immediate value, `additional` to the immediate value, and
`size` to 2. -/
theorem immediate_example_and_general :
    (statementFromLine exampleLine = Except.ok exampleStatement ∧
     exampleStatement.operand.is_immediate = true ∧
     exampleStatement.operand.get_immediate = Value.int 5) ∧
    (∀ (i : Instruction) (tbl : SymbolTable) (st : Statement) (v m : Nat),
      i.is_pseudo = false → i.is_special = false → i.is_branch_operation = false →
      i.mode.imm = Option.some v → 0 < v → v < 256 →
      st.operand.is_immediate = true → st.operand.get_immediate = Value.int m →
      0 < m → m < 256 → st.size = 0 → st.post_byte = Value.none →
      resultOpCode (translateWith i tbl st) = Option.some (Value.int v) ∧
      resultAdditional (translateWith i tbl st) = Option.some (Value.int m) ∧
      resultSize (translateWith i tbl st) = Option.some 2) := by
  constructor
  · exact ⟨rfl, rfl, rfl⟩
  · intro i tbl st v m hp hs hbr himm hv1 hv2 hop hgm hm1 hm2 hsz hpb
    obtain ⟨f1, f2, f3, f4, f5⟩ := imm_shape st.operand hop
    have hres := resolveOperand_not_symbol tbl st f4
    have hsimp : translateWith i tbl st =
        Except.ok (computeSize
          { st with op_code := Value.int v, additional := Value.int m }) := by
      simp [translateWith, hp, hs, hres, hbr, addrSteps, step_inherent, f1,
            step_immediate, hop, Mode.supports_immediate, himm, valOfOpt, hgm,
            step_extended_indirect, f3, step_direct, f2, step_extended, f5]
    rw [hsimp]
    refine ⟨rfl, rfl, ?_⟩
    have c1 := sizeContrib_int_byte v hv1 hv2
    have c2 := sizeContrib_int_byte m hm1 hm2
    have c0 : sizeContrib Value.none = 0 := rfl
    show Option.some (computeSize
      { st with op_code := Value.int v, additional := Value.int m }).size = Option.some 2
    simp [computeSize, hsz, hpb, c1, c2, c0]

/-- Witness for the general part of C5 at a concrete input: `LDA #$05`
with the immediate opcode 0x86. -/
theorem immediate_general_witness :
    resultOpCode (translateWith ldaInstruction [] stImm5) = Option.some (Value.int 0x86) ∧
    resultAdditional (translateWith ldaInstruction [] stImm5) = Option.some (Value.int 5) ∧
    resultSize (translateWith ldaInstruction [] stImm5) = Option.some 2 :=
  immediate_example_and_general.2 ldaInstruction [] stImm5 0x86 5
    rfl rfl rfl rfl (by decide) (by decide) rfl rfl (by decide) (by decide) rfl rfl

/-- C6: for a non-pseudo, non-special, non-branch descriptor and an
extended-indirect operand, translation with indexed support sets the
opcode to the indexed-mode value, `additional` to the extended-indirect
target and `post_byte` to the fixed constant 0x9F regardless of the
operand's content; without indexed support it fails with a
`TranslationError` naming the mnemonic. -/
theorem extended_indirect_behaviour (i : Instruction) (tbl : SymbolTable) (st : Statement)
    (hp : i.is_pseudo = false) (hs : i.is_special = false)
    (hbr : i.is_branch_operation = false)
    (hop : st.operand.is_extended_indirect = true) :
    (∀ v, i.mode.ind = Option.some v →
      resultOpCode (translateWith i tbl st) = Option.some (Value.int v) ∧
      resultAdditional (translateWith i tbl st) =
        Option.some st.operand.get_extended_indirect ∧
      resultPostByte (translateWith i tbl st) = Option.some (Value.int 0x9F)) ∧
    (i.mode.ind = Option.none →
      translateWith i tbl st =
        Except.error (Err.translation
          ("Instruction [" ++ fmtOptStr st.mnemonic ++ "] does not support indexed addressing")
          st)) := by
  obtain ⟨f0, f1, f2, f4, f5⟩ := extind_shape st.operand hop
  have hres := resolveOperand_not_symbol tbl st f4
  constructor
  · intro v hind
    simp [translateWith, hp, hs, hres, hbr, addrSteps, step_inherent, f0,
          step_immediate, f1, step_extended_indirect, hop, Mode.supports_indexed, hind,
          valOfOpt, step_direct, f2, step_extended, f5, resultOpCode, resultAdditional,
          resultPostByte, computeSize]
  · intro hind
    simp [translateWith, hp, hs, hres, hbr, addrSteps, step_inherent, f0,
          step_immediate, f1, step_extended_indirect, hop, Mode.supports_indexed, hind]

/-- Witness for C6 at concrete inputs: `LDA [$FFEE]` (indexed supported at
0xA6) and `CLRA [$FFEE]` (indexed unsupported). -/
theorem extended_indirect_witness :
    (resultOpCode (translateWith ldaInstruction [] stExtInd) = Option.some (Value.int 0xA6) ∧
     resultAdditional (translateWith ldaInstruction [] stExtInd) =
       Option.some stExtInd.operand.get_extended_indirect ∧
     resultPostByte (translateWith ldaInstruction [] stExtInd) =
       Option.some (Value.int 0x9F)) ∧
    translateWith clraInstruction [] stClraExtInd =
      Except.error (Err.translation
        ("Instruction [" ++ fmtOptStr stClraExtInd.mnemonic ++ "] does not support indexed addressing")
        stClraExtInd) :=
  ⟨(extended_indirect_behaviour ldaInstruction [] stExtInd rfl rfl rfl rfl).1 0xA6 rfl,
   (extended_indirect_behaviour clraInstruction [] stClraExtInd rfl rfl rfl rfl).2 rfl⟩

lemma parse_comment_only_example :
    statementFromLine "  ; hello  " =
      Except.ok { initStatement with
                  empty := false,
                  comment_only := true,
                  comment := Option.some "hello" } := rfl

lemma parse_instruction_example :
    statementFromLine " START $0E00" =
      Except.ok { initStatement with
                  empty := false,
                  mnemonic := Option.some "START",
                  operand := ⟨Option.some "$0E00"⟩ } := rfl

lemma parse_backtracking_quirk :
    statementFromLine "A B" =
      Except.error (Err.parse "Could not parse line [A B]" initStatement) := rfl

end CoCo
